import Mathlib

/-!
Verification development for the physio-dash-board repository.

The file shallowly embeds the parts of the code base that the verified
properties are about:

* the billing-cycle date utilities (billing utilities module),
* the client-side analytics service and the progress-analytics component,
* the analyze-patient API route and the password-change API route,
* the CSV export handlers of the admin Users component.

Dates are modelled by calendar records; the JavaScript Date engine
(constructor normalisation, epoch-millisecond comparison, Gregorian
calendar) is modelled by explicit arithmetic, with a single time zone
(offset zero), since all code under test constructs and compares dates
in one environment.
-/

namespace Physio

/-! Section: Calendar model -/

/-- A calendar date: year (non-negative), month 1-12, day 1-31.
Models the (year, month, day) view of a JavaScript Date value. -/
structure SDate where
  year : Nat
  month : Nat
  day : Nat
deriving Repr, DecidableEq

/-- Gregorian leap-year rule, as implemented by the JavaScript Date engine. -/
def isLeapYear (y : Nat) : Bool :=
  y % 4 == 0 && (y % 100 != 0 || y % 400 == 0)

/-- Number of days in a month (month is 1-12), as implemented by the
JavaScript Date engine. -/
def daysInMonth (y m : Nat) : Nat :=
  if m = 2 then (if isLeapYear y then 29 else 28)
  else if m = 4 ∨ m = 6 ∨ m = 9 ∨ m = 11 then 30
  else 31

/-- A date is valid when its month is 1-12 and its day is in range for
the month. -/
def ValidDate (d : SDate) : Prop :=
  1 ≤ d.month ∧ d.month ≤ 12 ∧ 1 ≤ d.day ∧ d.day ≤ daysInMonth d.year d.month

instance (d : SDate) : Decidable (ValidDate d) := by
  unfold ValidDate; infer_instance

/-- Models the JavaScript constructor new Date(year, monthIndex, day) on the
argument ranges the billing utilities use: monthIndex is 0-based and may
overflow past 11 (carrying into the year), and day 0 denotes the last day of
the previous month.  Day values of 1 up to the length of the month are taken
as-is. -/
def jsNewDate (y : Nat) (monthIndex : Nat) (day : Nat) : SDate :=
  let y1 := y + monthIndex / 12
  let m1 := monthIndex % 12 + 1
  if day = 0 then
    if m1 = 1 then ⟨y1 - 1, 12, 31⟩
    else ⟨y1, m1 - 1, daysInMonth y1 (m1 - 1)⟩
  else ⟨y1, m1, day⟩

/-! Section: Decimal printing and parsing

The repository formats dates with template strings (String(n), padStart)
and the JavaScript Date engine parses them back.  We model decimal
notation explicitly on lists of characters. -/

/-- Big-endian decimal digit characters of n, prepended to acc. -/
def natToCharsAux (n : Nat) (acc : List Char) : List Char :=
  if h : n < 10 then Nat.digitChar n :: acc
  else natToCharsAux (n / 10) (Nat.digitChar (n % 10) :: acc)
  termination_by n
  decreasing_by exact Nat.div_lt_self (by omega) (by omega)

/-- Decimal notation of a natural number, as the JavaScript String(n)
conversion produces for non-negative n. -/
def natToChars (n : Nat) : List Char :=
  natToCharsAux n []

/-- String(n) for labels and formatted output. -/
def natToString (n : Nat) : String :=
  String.mk (natToChars n)

/-- String(n).padStart(2, specific zero character): two-digit zero padding. -/
def pad2 (n : Nat) : List Char :=
  if n < 10 then '0' :: natToChars n else natToChars n

/-- The numeric value of a decimal digit character, none for other
characters. -/
def parseDigit (c : Char) : Option Nat :=
  if '0' ≤ c ∧ c ≤ '9' then some (c.toNat - 48) else none

/-- Reads decimal digits, accumulating the value; fails at the first
non-digit character. -/
def parseNatAux : List Char → Nat → Option Nat
  | [], acc => some acc
  | c :: cs, acc =>
    match parseDigit c with
    | some d => parseNatAux cs (acc * 10 + d)
    | none => none

/-- Parses a non-empty all-digit character list as a natural number. -/
def parseNatChars (cs : List Char) : Option Nat :=
  if cs.isEmpty then none else parseNatAux cs 0

/-! Section: Formatting and parsing of YYYY-MM-DD date strings -/

/-- formatDate from the billing utilities: the template
year dash padded month dash padded day. -/
def formatDate (d : SDate) : String :=
  String.mk (natToChars d.year ++ '-' :: pad2 d.month ++ '-' :: pad2 d.day)

/-- Splits a character list at every occurrence of sep (JavaScript
String.prototype.split with a single-character separator). -/
def splitOnChar (sep : Char) : List Char → List (List Char)
  | [] => [[]]
  | c :: cs =>
    if c = sep then [] :: splitOnChar sep cs
    else
      match splitOnChar sep cs with
      | [] => [[c]]
      | t :: ts => (c :: t) :: ts

/-- Models new Date(s) on a YYYY-MM-DD string: the three dash-separated
decimal fields, subject to the ISO range checks the engine performs
(month 1-12, day within the month).  Returns none for an invalid date
string, whose comparisons are all false in JavaScript. -/
def parseDateString (s : String) : Option SDate :=
  match (splitOnChar '-' s.data).map parseNatChars with
  | [some y, some m, some d] =>
    if 1 ≤ m ∧ m ≤ 12 ∧ 1 ≤ d ∧ d ≤ daysInMonth y m then some ⟨y, m, d⟩ else none
  | _ => none

/-! Section: Epoch timestamps

A JavaScript Date carries a millisecond timestamp; comparisons compare
timestamps.  We model a date-time as a calendar date plus milliseconds
since midnight, and compute the epoch day count with the standard
civil-from-days algorithm the engines implement. -/

/-- A date together with milliseconds since local midnight. -/
structure JsDate where
  date : SDate
  ms : Nat
deriving Repr, DecidableEq

/-- Days since the epoch 1970-01-01 of a calendar date (standard
days-from-civil computation over the proleptic Gregorian calendar). -/
def daysFromCivil (d : SDate) : Int :=
  let y := if d.month ≤ 2 then d.year - 1 else d.year
  let era := y / 400
  let yoe := y - era * 400
  let mp := (d.month + 9) % 12
  let doy := (153 * mp + 2) / 5 + d.day - 1
  let doe := yoe * 365 + yoe / 4 - yoe / 100 + doy
  ((era * 146097 + doe : Nat) : Int) - 719468

/-- Epoch milliseconds of a date-time (single time zone, offset zero). -/
def tsOf (dt : JsDate) : Int :=
  daysFromCivil dt.date * 86400000 + dt.ms

/-! Section: Billing-cycle utilities (billing utilities module) -/

/-- Result shape of the billing-cycle getters. -/
structure CycleRange where
  month : Nat
  year : Nat
  startDate : String
  endDate : String
deriving Repr, DecidableEq

/-- getBillingCycleForDate on a Date argument: the month and year of the
date, with the first and last day of that month formatted by formatDate.
The first day is new Date(year, month - 1, 1) and the last day is
new Date(year, month, 0). -/
def getBillingCycleForDate (d : SDate) : CycleRange :=
  { month := d.month
    year := d.year
    startDate := formatDate (jsNewDate d.year (d.month - 1) 1)
    endDate := formatDate (jsNewDate d.year d.month 0) }

/-- getCurrentBillingCycle: the same computation applied to the current
date, which the embedding passes explicitly. -/
def getCurrentBillingCycle (now : SDate) : CycleRange :=
  { month := now.month
    year := now.year
    startDate := formatDate (jsNewDate now.year (now.month - 1) 1)
    endDate := formatDate (jsNewDate now.year now.month 0) }

/-- getBillingCycleId: optional month and year default to the current
date; the result is year dash zero-padded month. -/
def getBillingCycleId (month? year? : Option Nat) (now : SDate) : String :=
  let m := month?.getD now.month
  let y := year?.getD now.year
  String.mk (natToChars y ++ '-' :: pad2 m)

/-- isDateInBillingCycle: parses the cycle boundary strings with new Date,
raises the end to 23:59:59.999 of its day, and compares timestamps.
Invalid boundary strings give NaN timestamps, whose comparisons are false. -/
def isDateInBillingCycle (d : JsDate) (cycleStart cycleEnd : String) : Bool :=
  match parseDateString cycleStart, parseDateString cycleEnd with
  | some s, some e =>
    decide (tsOf ⟨s, 0⟩ ≤ tsOf d) && decide (tsOf d ≤ tsOf ⟨e, 86399999⟩)
  | _, _ => false

/-- getPreviousBillingCycle: getMonth() is the 0-based month, so the
test getMonth() equal to 0 detects January. -/
def getPreviousBillingCycle (now : SDate) : CycleRange :=
  let year := if now.month - 1 = 0 then now.year - 1 else now.year
  let month := if now.month - 1 = 0 then 12 else now.month - 1
  { month := month
    year := year
    startDate := formatDate (jsNewDate year (month - 1) 1)
    endDate := formatDate (jsNewDate year month 0) }

/-- getNextBillingCycle: getMonth() equal to 11 detects December. -/
def getNextBillingCycle (now : SDate) : CycleRange :=
  let year := if now.month - 1 = 11 then now.year + 1 else now.year
  let month := if now.month - 1 = 11 then 1 else now.month + 1
  { month := month
    year := year
    startDate := formatDate (jsNewDate year (month - 1) 1)
    endDate := formatDate (jsNewDate year month 0) }

/-! Section: CSV encoding (admin Users component export handlers)

Cell escaping works on lists of characters; the two export handlers
assemble the header row and the employee rows and join them. -/

/-- True when a cell value contains a comma, a double quote or a newline
(the includes checks of the export handlers). -/
def needsQuote (cs : List Char) : Bool :=
  cs.any fun c => c = ',' || c = '"' || c = '\n'

/-- replace of every double quote by two double quotes. -/
def escQuotes : List Char → List Char
  | [] => []
  | c :: cs => if c = '"' then '"' :: '"' :: escQuotes cs else c :: escQuotes cs

/-- The per-cell escaping of the export handlers: a cell containing a
comma, double quote or newline is wrapped in double quotes with embedded
double quotes doubled; any other cell is emitted verbatim. -/
def escapeCell (cs : List Char) : List Char :=
  if needsQuote cs then '"' :: (escQuotes cs ++ ['"']) else cs

/-- Array.prototype.join with the given separator. -/
def joinSep (sep : List Char) : List (List Char) → List Char
  | [] => []
  | [x] => x
  | x :: xs => x ++ sep ++ joinSep sep xs

/-- One data row: escaped cells joined by commas. -/
def encodeRow (row : List (List Char)) : List Char :=
  joinSep [','] (row.map escapeCell)

/-- A whole CSV: rows joined by newlines, every cell escaped. -/
def encodeCSV (rows : List (List (List Char))) : List Char :=
  joinSep ['\n'] (rows.map encodeRow)

/-- Characters that may appear in an unquoted cell. -/
def notSep (c : Char) : Bool :=
  !(c = ',' || c = '\n')

/-- Reads the inside of a quoted cell up to and including its closing
quote; a doubled quote stands for one literal quote. -/
def parseQuoted : List Char → Option (List Char × List Char)
  | [] => none
  | ['"'] => some ([], [])
  | '"' :: '"' :: cs2 => (parseQuoted cs2).map fun p => ('"' :: p.1, p.2)
  | '"' :: cs => some ([], cs)
  | c :: cs => (parseQuoted cs).map fun p => (c :: p.1, p.2)

/-- Reads one CSV cell (quoted or verbatim); returns the cell value and
the rest of the input, which starts at the separator that ended the cell. -/
def parseCell : List Char → Option (List Char × List Char)
  | [] => some ([], [])
  | c :: cs =>
    if c = '"' then parseQuoted cs
    else some ((c :: cs).takeWhile notSep, (c :: cs).dropWhile notSep)

/-- Standard CSV reading of the whole input into rows of cells, with
explicit fuel (one unit per cell). -/
def parseCSVAux : Nat → List Char → Option (List (List (List Char)))
  | 0, _ => none
  | fuel + 1, cs =>
    match parseCell cs with
    | none => none
    | some (cell, rest) =>
      match rest with
      | [] => some [[cell]]
      | ',' :: r =>
        match parseCSVAux fuel r with
        | some (row :: rows) => some ((cell :: row) :: rows)
        | _ => none
      | '\n' :: r =>
        match parseCSVAux fuel r with
        | some rows => some ([cell] :: rows)
        | none => none
      | _ => none

/-- Number of cells of a rows-of-cells table. -/
def totalCells (rows : List (List (List Char))) : Nat :=
  (rows.map List.length).sum

/-- Standard CSV parser (the input length bounds the number of cells). -/
def parseCSV (cs : List Char) : Option (List (List (List Char))) :=
  parseCSVAux (cs.length + 1) cs

/-! Section: Employee records and the export handlers -/

/-- The employee roles of the admin Users component. -/
inductive EmployeeRole
  | FrontDesk
  | ClinicalTeam
  | Physiotherapist
  | StrengthAndConditioning
  | Admin
deriving Repr, DecidableEq

/-- ROLE_LABELS of the admin Users component. -/
def ROLE_LABELS : EmployeeRole → String
  | .Admin => "Admin"
  | .FrontDesk => "Front Desk"
  | .ClinicalTeam => "Clinical Team"
  | .Physiotherapist => "Physiotherapist"
  | .StrengthAndConditioning => "Strength & Conditioning"

/-- An employee record of the admin Users component; optional string
fields are modelled with Option, an absent boolean as false. -/
structure Employee where
  userName : String
  userEmail : String
  role : EmployeeRole
  status : String
  createdAt : Option String
  deleted : Bool
  deletedAt : Option String
  phone : Option String
  address : Option String
  dateOfBirth : Option String
  dateOfJoining : Option String
  gender : Option String
  bloodGroup : Option String
  emergencyContact : Option String
  emergencyPhone : Option String
  qualifications : Option String
  specialization : Option String
  experience : Option String
  professionalAim : Option String
deriving Repr, DecidableEq

/-- The header cells of handleExportCSV. -/
def exportHeaders : List String :=
  ["Name", "Email", "Role", "Status", "Created Date"]

/-- The row handleExportCSV builds for one employee; fmtDate models the
local formatDate display helper (locale-dependent). -/
def exportRow (fmtDate : Option String → String) (e : Employee) : List String :=
  [e.userName, e.userEmail, ROLE_LABELS e.role, e.status, fmtDate e.createdAt]

/-- handleExportCSV: the headers joined by commas, each employee row
escaped and joined by commas, all lines joined by newlines. -/
def handleExportCSV (fmtDate : Option String → String)
    (filteredEmployees : List Employee) : List Char :=
  joinSep ['\n']
    (joinSep [','] (exportHeaders.map String.data)
      :: filteredEmployees.map fun e => encodeRow ((exportRow fmtDate e).map String.data))

/-- The header cells of handleExportEmployeeDetailsCSV. -/
def exportDetailsHeaders : List String :=
  ["Name", "Email", "Role", "Status", "Phone", "Address", "Date of Birth",
   "Date of Joining", "Gender", "Blood Group", "Emergency Contact",
   "Emergency Phone", "Qualifications", "Specialization", "Experience",
   "Professional Aim", "Created Date", "Deleted", "Deleted Date"]

/-- The row handleExportEmployeeDetailsCSV builds for one employee
(absent optional fields become empty cells). -/
def exportDetailsRow (fmtDate : Option String → String) (e : Employee) : List String :=
  [e.userName, e.userEmail, ROLE_LABELS e.role, e.status,
   e.phone.getD "", e.address.getD "", e.dateOfBirth.getD "",
   e.dateOfJoining.getD "", e.gender.getD "", e.bloodGroup.getD "",
   e.emergencyContact.getD "", e.emergencyPhone.getD "",
   e.qualifications.getD "", e.specialization.getD "",
   e.experience.getD "", e.professionalAim.getD "",
   fmtDate e.createdAt,
   if e.deleted then "Yes" else "No",
   match e.deletedAt with
   | some iso => fmtDate (some iso)
   | none => ""]

/-- handleExportEmployeeDetailsCSV over all employees. -/
def handleExportEmployeeDetailsCSV (fmtDate : Option String → String)
    (employees : List Employee) : List Char :=
  joinSep ['\n']
    (joinSep [','] (exportDetailsHeaders.map String.data)
      :: employees.map fun e => encodeRow ((exportDetailsRow fmtDate e).map String.data))

/-! Section: Analytics service (fetchPatientAnalytics) -/

/-- An entry of the report history assembled by fetchPatientAnalytics;
createdAt is the epoch-millisecond timestamp of the ISO string the code
compares with new Date(x).getTime(). -/
structure ReportItem where
  version : Int
  createdAt : Int
  painRating : Option String
  rom : Option String
  diagnosis : Option String
  treatmentDone : Option String
deriving Repr, DecidableEq

/-- The sort comparator of fetchPatientAnalytics, as an order relation:
createdAt first, version as tie break (comparator value non-positive). -/
def leChron (a b : ReportItem) : Prop :=
  a.createdAt < b.createdAt ∨ (a.createdAt = b.createdAt ∧ a.version ≤ b.version)

instance : DecidableRel leChron := by
  unfold leChron
  infer_instance

/-- The isSorted adjacency check of fetchPatientAnalytics. -/
def isSortedByCreatedAt : List ReportItem → Bool
  | a :: b :: t => decide (a.createdAt ≤ b.createdAt) && isSortedByCreatedAt (b :: t)
  | _ => true

/-- Step 3 of fetchPatientAnalytics: keep the list when the adjacency
check says it is already chronological, otherwise sort by createdAt with
version as tie break.  Array.prototype.sort with a consistent comparator
is a stable sort, modelled by insertion sort. -/
def sortReportHistory (l : List ReportItem) : List ReportItem :=
  if isSortedByCreatedAt l then l else l.insertionSort leChron

/-- Steps 3.5 and 4 of fetchPatientAnalytics: none when the history is
empty (the function throws before the request); otherwise the request
body, namely slice(-5) of the sorted history. -/
def fetchRequestPayload (l : List ReportItem) : Option (List ReportItem) :=
  let sorted := sortReportHistory l
  if sorted.length = 0 then none
  else some (sorted.drop (sorted.length - 5))

/-! Section: Progress-analytics component -/

/-- The report fields of a version the session metrics read.  Numeric
extraction from mixed string or number fields (extractNumeric) is
modelled by the already-extracted optional rational value. -/
structure PatientRecordData where
  vasScale : Option ℚ
  currentPainStatus : Option String
  currentRom : Option String
  currentStrength : Option String
  currentFunctionalAbility : Option String
  complianceWithHEP : Option String
  treatmentProvided : Option String
  progressNotes : Option String
deriving Repr, DecidableEq

/-- A report version of the progress-analytics component; createdAt is
the epoch-millisecond timestamp of the ISO string. -/
structure ReportVersion where
  id : String
  version : Int
  createdAt : Int
  createdBy : String
  data : PatientRecordData
deriving Repr, DecidableEq

/-- The sort comparator of the component: version number first,
createdAt as tie break. -/
def leVersion (a b : ReportVersion) : Prop :=
  a.version < b.version ∨ (a.version = b.version ∧ a.createdAt ≤ b.createdAt)

instance : DecidableRel leVersion := by
  unfold leVersion
  infer_instance

/-- The sort the component applies to the loaded versions (stable,
modelled by insertion sort). -/
def componentSortVersions (l : List ReportVersion) : List ReportVersion :=
  l.insertionSort leVersion

/-- The numeric session metrics (display-only formatted fields of the
source record are omitted). -/
structure SessionMetrics where
  sessionNumber : Int
  vasScale : Option ℚ
  painStatus : Option String
  cumulativeVasChange : Option ℚ
  cumulativeImprovementRate : Int
deriving Repr, DecidableEq

/-- The predicate of the cumulative-improvement count. -/
def isImproved (v : ReportVersion) : Bool :=
  v.data.currentPainStatus == some "Improved"

/-- The sessionMetrics computation of the component: for each index, the
VAS delta from the first session and the rounded cumulative improvement
rate over the sessions so far. -/
def sessionMetrics (reportVersions : List ReportVersion) : List SessionMetrics :=
  if reportVersions.length = 0 then []
  else
    let firstVas : Option ℚ :=
      match reportVersions.head? with
      | some v => v.data.vasScale
      | none => none
    reportVersions.mapIdx fun (index : Nat) (version : ReportVersion) =>
      let vas := version.data.vasScale
      let vasChange : Option ℚ :=
        match firstVas, vas with
        | some f, some v => some (f - v)
        | _, _ => none
      let sessionsWithImprovement :=
        ((reportVersions.take (index + 1)).filter isImproved).length
      let rate : ℚ := (sessionsWithImprovement : ℚ) / ((index : ℚ) + 1) * 100
      { sessionNumber := if version.version = 0 then ((index + 1 : Nat) : Int) else version.version
        vasScale := vas
        painStatus := version.data.currentPainStatus
        cumulativeVasChange := vasChange
        cumulativeImprovementRate := round rate }

/-! Section: analyze-patient API route -/

/-- The analysis object shape. -/
structure AnalysisData where
  summary : String
  trend_analysis : String
  key_achievements : List String
  recommendation : String
deriving Repr, DecidableEq

/-- The canned fallback analysis returned on a rate-limit error. -/
def fallbackAnalysis : AnalysisData :=
  { summary := "AI services are currently busy. Please try again in a moment."
    trend_analysis := "Unable to analyze trends at this time due to high service demand. Please retry shortly."
    key_achievements := ["Analysis temporarily unavailable"]
    recommendation := "Please wait a moment and try again to get the latest analytics." }

/-- The reportHistory field of the request body: absent or not an array,
or an array of entries. -/
inductive BodyReportHistory
  | missing
  | notArray
  | arr (l : List ReportItem)
deriving Repr, DecidableEq

/-- The parsed JSON content of a completion, as the route validates it:
an optional value per required key, none standing for a missing or falsy
value (and, for key_achievements, for a non-array value). -/
structure JsonAnalysis where
  summary : Option String
  trend_analysis : Option String
  key_achievements : Option (List String)
  recommendation : Option String
deriving Repr, DecidableEq

/-- Outcome of the chat-completion call: an exception carrying optional
status, code and message, a response without content, content that is
not valid JSON, or parsed JSON content. -/
inductive OpenAIOutcome
  | threw (status : Option Int) (code : Option String) (msg : Option String)
  | noContent
  | badJson
  | json (a : JsonAnalysis)
deriving Repr, DecidableEq

/-- The JSON response of the analyze-patient route. -/
structure ApiResponse where
  status : Nat
  success : Bool
  message : Option String
  data : Option AnalysisData
deriving Repr, DecidableEq

/-- Whether an exception is a rate-limit error: status 429 or code
rate_limit_exceeded. -/
def isRateLimit (status : Option Int) (code : Option String) : Bool :=
  status == some 429 || code == some "rate_limit_exceeded"

/-- The POST handler of the analyze-patient route, as a function of the
request body, the API-key configuration and the outcome of the
chat-completion call.  The boolean records whether the OpenAI API was
invoked. -/
def analyzePatientPOST (rh : BodyReportHistory) (apiKeySet : Bool)
    (outcome : OpenAIOutcome) : ApiResponse × Bool :=
  match rh with
  | .missing =>
    (⟨400, false, some "Missing or invalid field: reportHistory (must be an array)", none⟩, false)
  | .notArray =>
    (⟨400, false, some "Missing or invalid field: reportHistory (must be an array)", none⟩, false)
  | .arr l =>
    if l.length = 0 then
      (⟨400, false, some "Report history is empty. At least one report is required for analysis.", none⟩, false)
    else if !apiKeySet then
      (⟨500, false, some "OpenAI API key is not configured", none⟩, false)
    else
      match outcome with
      | .threw status code msg =>
        if isRateLimit status code then
          (⟨200, true, none, some fallbackAnalysis⟩, true)
        else if status == some 401 then
          (⟨401, false, some "Invalid OpenAI API key", none⟩, true)
        else if isRateLimit status code then
          (⟨200, true, none, some fallbackAnalysis⟩, true)
        else
          (⟨500, false, some (msg.getD "Failed to analyze patient data"), none⟩, true)
      | .noContent =>
        (⟨500, false, some "No response from OpenAI", none⟩, true)
      | .badJson =>
        (⟨500, false, some "Invalid JSON response from AI", none⟩, true)
      | .json a =>
        match a.summary, a.trend_analysis, a.key_achievements, a.recommendation with
        | some s, some t, some k, some r =>
          (⟨200, true, none, some ⟨s, t, k, r⟩⟩, true)
        | _, _, _, _ =>
          (⟨500, false, some "Invalid analysis structure from AI. Missing required fields.", none⟩, true)

/-! Section: Password-change API route -/

/-- The decoded ID token (an absent email is modelled by the empty
string, which is falsy in the source check). -/
structure DecodedToken where
  uid : String
  email : String
deriving Repr, DecidableEq

/-- The JSON response of the password-change route. -/
structure PwResponse where
  status : Nat
  error : Option String
  success : Bool
  message : Option String
deriving Repr, DecidableEq

/-- String.prototype.trim: strips leading and trailing whitespace. -/
def jsTrim (s : String) : String :=
  String.mk
    ((((s.data.dropWhile Char.isWhitespace).reverse).dropWhile
      Char.isWhitespace).reverse)

/-- The POST handler of the password-change route, as a function of the
optional body fields, the token verifier (none models a verification
exception) and whether the admin password update succeeds.  The second
component is the update call, with uid and new password, when it was
issued. -/
def changePasswordPOST (idToken? currentPassword? newPassword? : Option String)
    (verifyIdToken : String → Option DecodedToken) (updateOk : Bool) :
    PwResponse × Option (String × String) :=
  let idToken := jsTrim (idToken?.getD "")
  let currentPassword := jsTrim (currentPassword?.getD "")
  let newPassword := jsTrim (newPassword?.getD "")
  if idToken = "" then
    (⟨401, some "Authentication token is required", false, none⟩, none)
  else if currentPassword = "" then
    (⟨400, some "Current password is required", false, none⟩, none)
  else if newPassword = "" then
    (⟨400, some "New password is required", false, none⟩, none)
  else if newPassword.length < 6 then
    (⟨400, some "New password must be at least 6 characters long", false, none⟩, none)
  else
    match verifyIdToken idToken with
    | none =>
      (⟨401, some "Invalid or expired authentication token. Please log in again.", false, none⟩, none)
    | some tok =>
      if tok.email = "" then
        (⟨400, some "User email not found", false, none⟩, none)
      else if updateOk then
        (⟨200, none, true, some "Password has been changed successfully"⟩, some (tok.uid, newPassword))
      else
        (⟨500, some "Failed to update password. Please try again.", false, none⟩, some (tok.uid, newPassword))

/-! Section: Lemmas: decimal notation -/

theorem parseDigit_digitChar {d : Nat} (h : d < 10) :
    parseDigit (Nat.digitChar d) = some d := by
  interval_cases d <;> decide

theorem digitChar_ne_dash {d : Nat} (h : d < 10) : Nat.digitChar d ≠ '-' := by
  interval_cases d <;> decide

theorem parseNatAux_natToCharsAux :
    ∀ n acc a, ∃ k, parseNatAux (natToCharsAux n acc) a =
      parseNatAux acc (a * 10 ^ k + n) := by
  intro n
  induction n using Nat.strong_induction_on with
  | _ n ih =>
    intro acc a
    rw [natToCharsAux]
    split
    · rename_i hlt
      refine ⟨1, ?_⟩
      simp only [parseNatAux, parseDigit_digitChar hlt]
      norm_num
    · rename_i hge
      obtain ⟨k, hk⟩ := ih (n / 10) (Nat.div_lt_self (by omega) (by omega))
        (Nat.digitChar (n % 10) :: acc) a
      refine ⟨k + 1, ?_⟩
      rw [hk]
      simp only [parseNatAux, parseDigit_digitChar (Nat.mod_lt _ (by omega))]
      congr 1
      have := Nat.div_add_mod n 10
      ring_nf
      omega

theorem natToCharsAux_ne_nil : ∀ (n : Nat) (acc : List Char),
    natToCharsAux n acc ≠ [] := by
  intro n
  induction n using Nat.strong_induction_on with
  | _ n ih =>
    intro acc
    rw [natToCharsAux]
    split
    · simp
    · exact ih (n / 10) (Nat.div_lt_self (by omega) (by omega)) _

theorem mem_natToCharsAux {c : Char} :
    ∀ n acc, c ∈ natToCharsAux n acc → c ∈ acc ∨ ∃ d, d < 10 ∧ c = Nat.digitChar d := by
  intro n
  induction n using Nat.strong_induction_on with
  | _ n ih =>
    intro acc hc
    rw [natToCharsAux] at hc
    split at hc
    · rcases List.mem_cons.mp hc with h | h
      · exact Or.inr ⟨n, by omega, h⟩
      · exact Or.inl h
    · rename_i h
      rcases ih (n / 10) (Nat.div_lt_self (by omega) (by omega)) _ hc with h2 | h2
      · rcases List.mem_cons.mp h2 with h3 | h3
        · exact Or.inr ⟨n % 10, Nat.mod_lt _ (by omega), h3⟩
        · exact Or.inl h3
      · exact Or.inr h2

theorem dash_not_mem_natToChars (n : Nat) : '-' ∉ natToChars n := by
  intro h
  rcases mem_natToCharsAux n [] h with h2 | ⟨d, hd, h2⟩
  · simp at h2
  · exact digitChar_ne_dash hd h2.symm

theorem dash_not_mem_pad2 (n : Nat) : '-' ∉ pad2 n := by
  unfold pad2
  split
  · intro h
    rcases List.mem_cons.mp h with h2 | h2
    · simp at h2
    · exact dash_not_mem_natToChars n h2
  · exact dash_not_mem_natToChars n

theorem parseNatAux_natToChars_zero (n : Nat) :
    parseNatAux (natToChars n) 0 = some n := by
  obtain ⟨k, hk⟩ := parseNatAux_natToCharsAux n [] 0
  unfold natToChars
  rw [hk]
  simp [parseNatAux]

theorem parseNatChars_natToChars (n : Nat) :
    parseNatChars (natToChars n) = some n := by
  unfold parseNatChars
  rw [if_neg, parseNatAux_natToChars_zero]
  simp only [List.isEmpty_eq_true]
  exact natToCharsAux_ne_nil n []

theorem parseNatChars_pad2 (n : Nat) : parseNatChars (pad2 n) = some n := by
  unfold pad2
  split
  · unfold parseNatChars
    rw [if_neg (by simp)]
    have h0 : parseDigit '0' = some 0 := by decide
    simp only [parseNatAux, h0]
    rw [show 0 * 10 + 0 = 0 from rfl]
    exact parseNatAux_natToChars_zero n
  · exact parseNatChars_natToChars n

/-! Section: Lemmas: splitting on dashes -/

theorem splitOnChar_cons (sep c : Char) (cs : List Char) :
    splitOnChar sep (c :: cs) =
      if c = sep then [] :: splitOnChar sep cs
      else
        match splitOnChar sep cs with
        | [] => [[c]]
        | t :: ts => (c :: t) :: ts := rfl

theorem splitOnChar_of_not_mem {sep : Char} :
    ∀ {xs : List Char}, sep ∉ xs → splitOnChar sep xs = [xs] := by
  intro xs
  induction xs with
  | nil => intro _; rfl
  | cons c cs ih =>
    intro h
    have hc : c ≠ sep := fun hc => h (hc ▸ List.mem_cons_self c cs)
    have hcs : sep ∉ cs := fun h2 => h (List.mem_cons_of_mem c h2)
    rw [splitOnChar_cons, if_neg hc, ih hcs]

theorem splitOnChar_append {sep : Char} :
    ∀ {xs : List Char} (ys : List Char), sep ∉ xs →
      splitOnChar sep (xs ++ sep :: ys) = xs :: splitOnChar sep ys := by
  intro xs
  induction xs with
  | nil =>
    intro ys _
    rw [List.nil_append, splitOnChar_cons, if_pos rfl]
  | cons c cs ih =>
    intro ys h
    have hc : c ≠ sep := fun hc => h (hc ▸ List.mem_cons_self c cs)
    have hcs : sep ∉ cs := fun h2 => h (List.mem_cons_of_mem c h2)
    rw [List.cons_append, splitOnChar_cons, if_neg hc, ih ys hcs]

theorem parse_formatDate {d : SDate} (h : ValidDate d) :
    parseDateString (formatDate d) = some d := by
  obtain ⟨h1, h2, h3, h4⟩ := h
  unfold parseDateString formatDate
  have hdata : (String.mk
      (natToChars d.year ++ '-' :: pad2 d.month ++ '-' :: pad2 d.day)).data =
      natToChars d.year ++ '-' :: (pad2 d.month ++ '-' :: pad2 d.day) := by
    simp
  rw [hdata]
  rw [splitOnChar_append _ (dash_not_mem_natToChars d.year),
    splitOnChar_append _ (dash_not_mem_pad2 d.month),
    splitOnChar_of_not_mem (dash_not_mem_pad2 d.day)]
  simp only [List.map, parseNatChars_natToChars, parseNatChars_pad2]
  rw [if_pos ⟨h1, h2, h3, h4⟩]

/-! Section: Lemmas: Date constructor normalisation and timestamps -/

theorem jsNewDate_first {m : Nat} (y : Nat) (h1 : 1 ≤ m) (h2 : m ≤ 12) :
    jsNewDate y (m - 1) 1 = ⟨y, m, 1⟩ := by
  interval_cases m <;> simp [jsNewDate]

theorem daysInMonth_pos (y m : Nat) : 1 ≤ daysInMonth y m := by
  unfold daysInMonth
  split
  · split <;> omega
  · split <;> omega

theorem jsNewDate_last {m : Nat} (y : Nat) (h1 : 1 ≤ m) (h2 : m ≤ 12) :
    jsNewDate y m 0 = ⟨y, m, daysInMonth y m⟩ := by
  interval_cases m <;> simp [jsNewDate, daysInMonth]

theorem validDate_first {y m : Nat} (h1 : 1 ≤ m) (h2 : m ≤ 12) :
    ValidDate ⟨y, m, 1⟩ :=
  ⟨h1, h2, le_refl 1, daysInMonth_pos y m⟩

theorem validDate_last {y m : Nat} (h1 : 1 ≤ m) (h2 : m ≤ 12) :
    ValidDate ⟨y, m, daysInMonth y m⟩ :=
  ⟨h1, h2, daysInMonth_pos y m, le_refl _⟩

theorem tsOf_sub_same_month (y m d1 d2 ms1 ms2 : Nat)
    (h1 : 1 ≤ d1) (h2 : 1 ≤ d2) :
    tsOf ⟨⟨y, m, d2⟩, ms2⟩ - tsOf ⟨⟨y, m, d1⟩, ms1⟩ =
      ((d2 : Int) - d1) * 86400000 + ((ms2 : Int) - ms1) := by
  unfold tsOf daysFromCivil
  simp only
  generalize (if m ≤ 2 then y - 1 else y) = Y
  generalize hE : Y / 400 = era
  generalize hY : Y - era * 400 = yoe
  generalize hM : (m + 9) % 12 = mp
  generalize hB : (153 * mp + 2) / 5 = base
  generalize hW : yoe * 365 + yoe / 4 - yoe / 100 = w
  have e2 : base + d2 - 1 = base + (d2 - 1) := by omega
  have e1 : base + d1 - 1 = base + (d1 - 1) := by omega
  rw [e2, e1]
  push_cast
  have c2 : ((d2 - 1 : Nat) : Int) = (d2 : Int) - 1 := by omega
  have c1 : ((d1 - 1 : Nat) : Int) = (d1 : Int) - 1 := by omega
  rw [c2, c1]
  ring

/-! Section: Claim C1: getBillingCycleForDate and getCurrentBillingCycle -/

/-- C1: For every valid date d, getBillingCycleForDate d returns the
month (1-12) and year of d, the first day of that month as startDate and
the last day of that month as endDate (28, 29, 30 or 31 days according
to the month and the leap year rule), both formatted by formatDate; and
getCurrentBillingCycle computes the same cycle for the current date. -/
theorem getBillingCycleForDate_spec (d : SDate) (hv : ValidDate d) :
    (getBillingCycleForDate d).month = d.month ∧
    (getBillingCycleForDate d).year = d.year ∧
    (getBillingCycleForDate d).startDate = formatDate ⟨d.year, d.month, 1⟩ ∧
    (getBillingCycleForDate d).endDate =
      formatDate ⟨d.year, d.month, daysInMonth d.year d.month⟩ ∧
    (d.month = 2 →
      daysInMonth d.year d.month = if isLeapYear d.year then 29 else 28) ∧
    (d.month = 4 ∨ d.month = 6 ∨ d.month = 9 ∨ d.month = 11 →
      daysInMonth d.year d.month = 30) ∧
    (d.month = 1 ∨ d.month = 3 ∨ d.month = 5 ∨ d.month = 7 ∨ d.month = 8 ∨
        d.month = 10 ∨ d.month = 12 →
      daysInMonth d.year d.month = 31) ∧
    (∀ now : SDate, getCurrentBillingCycle now = getBillingCycleForDate now) := by
  obtain ⟨h1, h2, _, _⟩ := hv
  refine ⟨rfl, rfl, ?_, ?_, ?_, ?_, ?_, fun _ => rfl⟩
  · unfold getBillingCycleForDate
    rw [jsNewDate_first d.year h1 h2]
  · unfold getBillingCycleForDate
    rw [jsNewDate_last d.year h1 h2]
  · intro hm
    rw [daysInMonth, if_pos hm]
  · intro hm
    rw [daysInMonth, if_neg (by omega), if_pos hm]
  · intro hm
    rw [daysInMonth, if_neg (by omega), if_neg (by omega)]

/-- Witness for C1 at the date 2024-02-15 (a leap year). -/
theorem getBillingCycleForDate_spec_witness :
    (getBillingCycleForDate ⟨2024, 2, 15⟩).month = 2 ∧
    (getBillingCycleForDate ⟨2024, 2, 15⟩).year = 2024 ∧
    (getBillingCycleForDate ⟨2024, 2, 15⟩).startDate = formatDate ⟨2024, 2, 1⟩ ∧
    (getBillingCycleForDate ⟨2024, 2, 15⟩).endDate =
      formatDate ⟨2024, 2, daysInMonth 2024 2⟩ ∧
    (2 = 2 → daysInMonth 2024 2 = if isLeapYear 2024 then 29 else 28) ∧
    (2 = 4 ∨ 2 = 6 ∨ 2 = 9 ∨ 2 = 11 → daysInMonth 2024 2 = 30) ∧
    (2 = 1 ∨ 2 = 3 ∨ 2 = 5 ∨ 2 = 7 ∨ 2 = 8 ∨ 2 = 10 ∨ 2 = 12 →
      daysInMonth 2024 2 = 31) ∧
    (∀ now : SDate, getCurrentBillingCycle now = getBillingCycleForDate now) :=
  getBillingCycleForDate_spec ⟨2024, 2, 15⟩ (by decide)

/-! Section: Claim C5: isDateInBillingCycle -/

/-- C5: isDateInBillingCycle holds iff the date lies between the start
day at 00:00:00 and the end day at 23:59:59.999 (the entire end day is
included); in particular a date always lies inside its own computed
billing cycle. -/
theorem isDateInBillingCycle_spec (dt : JsDate) (hv : ValidDate dt.date)
    (hms : dt.ms < 86400000) :
    (∀ s e : SDate, ValidDate s → ValidDate e →
      (isDateInBillingCycle dt (formatDate s) (formatDate e) = true ↔
        tsOf ⟨s, 0⟩ ≤ tsOf dt ∧ tsOf dt ≤ tsOf ⟨e, 86399999⟩)) ∧
    isDateInBillingCycle dt (getBillingCycleForDate dt.date).startDate
      (getBillingCycleForDate dt.date).endDate = true := by
  have main : ∀ s e : SDate, ValidDate s → ValidDate e →
      (isDateInBillingCycle dt (formatDate s) (formatDate e) = true ↔
        tsOf ⟨s, 0⟩ ≤ tsOf dt ∧ tsOf dt ≤ tsOf ⟨e, 86399999⟩) := by
    intro s e hs he
    unfold isDateInBillingCycle
    rw [parse_formatDate hs, parse_formatDate he]
    simp
  refine ⟨main, ?_⟩
  obtain ⟨h1, h2, h3, h4⟩ := hv
  have hstart : (getBillingCycleForDate dt.date).startDate =
      formatDate ⟨dt.date.year, dt.date.month, 1⟩ := by
    unfold getBillingCycleForDate
    rw [jsNewDate_first dt.date.year h1 h2]
  have hend : (getBillingCycleForDate dt.date).endDate =
      formatDate ⟨dt.date.year, dt.date.month,
        daysInMonth dt.date.year dt.date.month⟩ := by
    unfold getBillingCycleForDate
    rw [jsNewDate_last dt.date.year h1 h2]
  rw [hstart, hend,
    main _ _ (validDate_first h1 h2) (validDate_last h1 h2)]
  have hdt : tsOf dt =
      tsOf ⟨⟨dt.date.year, dt.date.month, dt.date.day⟩, dt.ms⟩ := rfl
  constructor
  · have hsub := tsOf_sub_same_month dt.date.year dt.date.month 1 dt.date.day
      0 dt.ms (le_refl 1) h3
    rw [hdt]
    omega
  · have hsub := tsOf_sub_same_month dt.date.year dt.date.month dt.date.day
      (daysInMonth dt.date.year dt.date.month) dt.ms 86399999 h3
      (daysInMonth_pos dt.date.year dt.date.month)
    rw [hdt]
    omega

/-- Witness for C5 at the date-time 2024-03-15 02:00:00.000. -/
theorem isDateInBillingCycle_spec_witness :
    (∀ s e : SDate, ValidDate s → ValidDate e →
      (isDateInBillingCycle ⟨⟨2024, 3, 15⟩, 7200000⟩ (formatDate s)
          (formatDate e) = true ↔
        tsOf ⟨s, 0⟩ ≤ tsOf ⟨⟨2024, 3, 15⟩, 7200000⟩ ∧
          tsOf ⟨⟨2024, 3, 15⟩, 7200000⟩ ≤ tsOf ⟨e, 86399999⟩)) ∧
    isDateInBillingCycle ⟨⟨2024, 3, 15⟩, 7200000⟩
      (getBillingCycleForDate ⟨2024, 3, 15⟩).startDate
      (getBillingCycleForDate ⟨2024, 3, 15⟩).endDate = true :=
  isDateInBillingCycle_spec ⟨⟨2024, 3, 15⟩, 7200000⟩ (by decide) (by decide)

/-! Section: Claim C6: previous and next cycle, cycle id -/

/-- C6: getPreviousBillingCycle returns the calendar month before the
current one (December of the previous year in January) and
getNextBillingCycle the month after (January of the next year in
December), each with the first and last day of that month as
startDate and endDate formatted by formatDate; getBillingCycleId
formats a cycle as the year, a dash, and the zero-padded month. -/
theorem getPreviousBillingCycle_spec (now : SDate) (hv : ValidDate now)
    (_hy : 1 ≤ now.year) :
    (now.month = 1 →
      getPreviousBillingCycle now =
        ⟨12, now.year - 1, formatDate ⟨now.year - 1, 12, 1⟩,
          formatDate ⟨now.year - 1, 12, 31⟩⟩) ∧
    (2 ≤ now.month →
      getPreviousBillingCycle now =
        ⟨now.month - 1, now.year, formatDate ⟨now.year, now.month - 1, 1⟩,
          formatDate ⟨now.year, now.month - 1,
            daysInMonth now.year (now.month - 1)⟩⟩) ∧
    (now.month = 12 →
      getNextBillingCycle now =
        ⟨1, now.year + 1, formatDate ⟨now.year + 1, 1, 1⟩,
          formatDate ⟨now.year + 1, 1, 31⟩⟩) ∧
    (now.month ≤ 11 →
      getNextBillingCycle now =
        ⟨now.month + 1, now.year, formatDate ⟨now.year, now.month + 1, 1⟩,
          formatDate ⟨now.year, now.month + 1,
            daysInMonth now.year (now.month + 1)⟩⟩) ∧
    (∀ (m y : Nat) (now2 : SDate),
      getBillingCycleId (some m) (some y) now2 =
        natToString y ++ "-" ++ String.mk (pad2 m) ∧
      (m < 10 → String.mk (pad2 m) = "0" ++ natToString m) ∧
      (10 ≤ m → String.mk (pad2 m) = natToString m)) := by
  obtain ⟨h1, h2, _, _⟩ := hv
  refine ⟨?_, ?_, ?_, ?_, ?_⟩
  · intro hm
    have hc : now.month - 1 = 0 := by omega
    simp only [getPreviousBillingCycle]
    rw [if_pos hc, if_pos hc,
      jsNewDate_first (now.year - 1) (by norm_num) (by norm_num),
      jsNewDate_last (now.year - 1) (by norm_num) (by norm_num),
      show daysInMonth (now.year - 1) 12 = 31 by simp [daysInMonth]]
  · intro hm
    have hc : ¬(now.month - 1 = 0) := by omega
    simp only [getPreviousBillingCycle]
    rw [if_neg hc, if_neg hc,
      jsNewDate_first now.year (by omega) (by omega),
      jsNewDate_last now.year (by omega) (by omega)]
  · intro hm
    have hc : now.month - 1 = 11 := by omega
    simp only [getNextBillingCycle]
    rw [if_pos hc, if_pos hc,
      jsNewDate_first (now.year + 1) (by norm_num) (by norm_num),
      jsNewDate_last (now.year + 1) (by norm_num) (by norm_num),
      show daysInMonth (now.year + 1) 1 = 31 by simp [daysInMonth]]
  · intro hm
    have hc : ¬(now.month - 1 = 11) := by omega
    simp only [getNextBillingCycle]
    rw [if_neg hc, if_neg hc,
      jsNewDate_first now.year (by omega) (by omega),
      jsNewDate_last now.year (by omega) (by omega)]
  · intro m y now2
    refine ⟨?_, ?_, ?_⟩
    · apply String.ext
      simp [getBillingCycleId, natToString]
    · intro hm
      unfold pad2
      rw [if_pos hm]
      rfl
    · intro hm
      unfold pad2
      rw [if_neg (by omega)]
      rfl

/-- Witness for C6 at the date 2025-01-15. -/
theorem getPreviousBillingCycle_spec_witness :
    ((1 : Nat) = 1 →
      getPreviousBillingCycle ⟨2025, 1, 15⟩ =
        ⟨12, 2025 - 1, formatDate ⟨2025 - 1, 12, 1⟩,
          formatDate ⟨2025 - 1, 12, 31⟩⟩) ∧
    (2 ≤ (1 : Nat) →
      getPreviousBillingCycle ⟨2025, 1, 15⟩ =
        ⟨1 - 1, 2025, formatDate ⟨2025, 1 - 1, 1⟩,
          formatDate ⟨2025, 1 - 1, daysInMonth 2025 (1 - 1)⟩⟩) ∧
    ((1 : Nat) = 12 →
      getNextBillingCycle ⟨2025, 1, 15⟩ =
        ⟨1, 2025 + 1, formatDate ⟨2025 + 1, 1, 1⟩,
          formatDate ⟨2025 + 1, 1, 31⟩⟩) ∧
    ((1 : Nat) ≤ 11 →
      getNextBillingCycle ⟨2025, 1, 15⟩ =
        ⟨1 + 1, 2025, formatDate ⟨2025, 1 + 1, 1⟩,
          formatDate ⟨2025, 1 + 1, daysInMonth 2025 (1 + 1)⟩⟩) ∧
    (∀ (m y : Nat) (now2 : SDate),
      getBillingCycleId (some m) (some y) now2 =
        natToString y ++ "-" ++ String.mk (pad2 m) ∧
      (m < 10 → String.mk (pad2 m) = "0" ++ natToString m) ∧
      (10 ≤ m → String.mk (pad2 m) = natToString m)) :=
  getPreviousBillingCycle_spec ⟨2025, 1, 15⟩ (by decide) (by decide)

/-! Section: Lemmas: sorting of report histories -/

instance : IsTotal ReportItem leChron :=
  ⟨by intro a b; unfold leChron; omega⟩

instance : IsTrans ReportItem leChron :=
  ⟨by intro a b c; unfold leChron; omega⟩

instance : IsTotal ReportVersion leVersion :=
  ⟨by intro a b; unfold leVersion; omega⟩

instance : IsTrans ReportVersion leVersion :=
  ⟨by intro a b c; unfold leVersion; omega⟩

theorem isSorted_le_head (a : ReportItem) :
    ∀ t : List ReportItem, isSortedByCreatedAt (a :: t) = true →
      ∀ x ∈ t, a.createdAt ≤ x.createdAt := by
  intro t
  induction t generalizing a with
  | nil => intro _ x hx; simp at hx
  | cons b t' ih =>
    intro h x hx
    rw [isSortedByCreatedAt] at h
    simp only [Bool.and_eq_true, decide_eq_true_eq] at h
    rcases List.mem_cons.mp hx with rfl | hx'
    · exact h.1
    · exact le_trans h.1 (ih b h.2 x hx')

theorem isSorted_pairwise :
    ∀ l : List ReportItem, isSortedByCreatedAt l = true →
      l.Pairwise (fun a b => a.createdAt ≤ b.createdAt) := by
  intro l
  induction l with
  | nil => intro _; exact List.Pairwise.nil
  | cons a t ih =>
    intro h
    refine List.Pairwise.cons (isSorted_le_head a t h) (ih ?_)
    match t with
    | [] => rfl
    | b :: t' =>
      rw [isSortedByCreatedAt] at h
      simp only [Bool.and_eq_true] at h
      exact h.2

theorem sortReportHistory_chron (l : List ReportItem) :
    (sortReportHistory l).Pairwise (fun a b => a.createdAt ≤ b.createdAt) := by
  unfold sortReportHistory
  split
  · exact isSorted_pairwise l (by assumption)
  · exact (List.sorted_insertionSort leChron l).imp
      (fun hab => by unfold leChron at hab; omega)

theorem length_sortReportHistory (l : List ReportItem) :
    (sortReportHistory l).length = l.length := by
  unfold sortReportHistory
  split
  · rfl
  · exact (List.perm_insertionSort leChron l).length_eq

/-! Section: Claim C2 (corrected): chronological order of the two lists -/

/-- Counterexample to C2 as stated: with two fetched report versions,
version 2 created at time 0 and version 1 created at time 100, the
component sorts by version number, producing a list whose createdAt
sequence is 100 followed by 0 — not nondecreasing. -/
theorem componentSort_counterexample :
    componentSortVersions
        [⟨"a", 2, 0, "u", ⟨none, none, none, none, none, none, none, none⟩⟩,
         ⟨"b", 1, 100, "v", ⟨none, none, none, none, none, none, none, none⟩⟩] =
      [⟨"b", 1, 100, "v", ⟨none, none, none, none, none, none, none, none⟩⟩,
       ⟨"a", 2, 0, "u", ⟨none, none, none, none, none, none, none, none⟩⟩] ∧
    ¬ (componentSortVersions
        [⟨"a", 2, 0, "u", ⟨none, none, none, none, none, none, none, none⟩⟩,
         ⟨"b", 1, 100, "v", ⟨none, none, none, none, none, none, none, none⟩⟩]).Pairwise
      (fun a b => a.createdAt ≤ b.createdAt) := by
  constructor
  · decide
  · decide

/-- C2 (amended): the report list produced by fetchPatientAnalytics is
ordered by nondecreasing createdAt; the versions list of the
progress-analytics component is ordered by nondecreasing version number
(createdAt breaking ties), which is chronological only when version
order agrees with creation order. -/
theorem report_lists_sorted_spec :
    (∀ l : List ReportItem,
      (sortReportHistory l).Pairwise (fun a b => a.createdAt ≤ b.createdAt)) ∧
    (∀ l : List ReportVersion,
      (componentSortVersions l).Pairwise (fun a b => a.version ≤ b.version)) := by
  refine ⟨sortReportHistory_chron, ?_⟩
  intro l
  exact (List.sorted_insertionSort leVersion l).imp
    (fun hab => by unfold leVersion at hab; omega)

/-! Section: Claim C9: payload cap of fetchPatientAnalytics -/

/-- C9: the request payload is exactly the last min(n, 5) elements of
the sorted report history (a suffix of a chronologically nondecreasing
list, hence the latest reports), and with an empty history the function
throws without issuing the request. -/
theorem fetchRequestPayload_spec (l : List ReportItem) :
    (l = [] → fetchRequestPayload l = none) ∧
    (l ≠ [] →
      fetchRequestPayload l =
        some ((sortReportHistory l).drop (l.length - 5)) ∧
      ((sortReportHistory l).drop (l.length - 5)).length = min l.length 5 ∧
      (sortReportHistory l).drop (l.length - 5) <:+ sortReportHistory l ∧
      ((sortReportHistory l).drop (l.length - 5)).Pairwise
        (fun a b => a.createdAt ≤ b.createdAt)) := by
  constructor
  · rintro rfl
    rfl
  · intro hne
    have hlen := length_sortReportHistory l
    have hlenne : l.length ≠ 0 := fun h0 => hne (List.length_eq_zero.mp h0)
    refine ⟨?_, ?_, List.drop_suffix _ _, ?_⟩
    · unfold fetchRequestPayload
      rw [if_neg (by omega), hlen]
    · rw [List.length_drop, hlen]
      omega
    · exact (sortReportHistory_chron l).sublist
        ((List.drop_suffix _ _).sublist)

/-- Witness for C9 on a six-element history. -/
theorem fetchRequestPayload_spec_witness :
    (([⟨1, 10, none, none, none, none⟩, ⟨2, 20, none, none, none, none⟩,
       ⟨3, 30, none, none, none, none⟩, ⟨4, 40, none, none, none, none⟩,
       ⟨5, 50, none, none, none, none⟩, ⟨6, 60, none, none, none, none⟩] :
        List ReportItem) = [] →
      fetchRequestPayload
        [⟨1, 10, none, none, none, none⟩, ⟨2, 20, none, none, none, none⟩,
         ⟨3, 30, none, none, none, none⟩, ⟨4, 40, none, none, none, none⟩,
         ⟨5, 50, none, none, none, none⟩, ⟨6, 60, none, none, none, none⟩] = none) ∧
    (([⟨1, 10, none, none, none, none⟩, ⟨2, 20, none, none, none, none⟩,
       ⟨3, 30, none, none, none, none⟩, ⟨4, 40, none, none, none, none⟩,
       ⟨5, 50, none, none, none, none⟩, ⟨6, 60, none, none, none, none⟩] :
        List ReportItem) ≠ [] →
      fetchRequestPayload
        [⟨1, 10, none, none, none, none⟩, ⟨2, 20, none, none, none, none⟩,
         ⟨3, 30, none, none, none, none⟩, ⟨4, 40, none, none, none, none⟩,
         ⟨5, 50, none, none, none, none⟩, ⟨6, 60, none, none, none, none⟩] =
        some ((sortReportHistory
          [⟨1, 10, none, none, none, none⟩, ⟨2, 20, none, none, none, none⟩,
           ⟨3, 30, none, none, none, none⟩, ⟨4, 40, none, none, none, none⟩,
           ⟨5, 50, none, none, none, none⟩, ⟨6, 60, none, none, none, none⟩]).drop
            (6 - 5)) ∧
      ((sortReportHistory
          [⟨1, 10, none, none, none, none⟩, ⟨2, 20, none, none, none, none⟩,
           ⟨3, 30, none, none, none, none⟩, ⟨4, 40, none, none, none, none⟩,
           ⟨5, 50, none, none, none, none⟩, ⟨6, 60, none, none, none, none⟩]).drop
            (6 - 5)).length = min 6 5 ∧
      (sortReportHistory
          [⟨1, 10, none, none, none, none⟩, ⟨2, 20, none, none, none, none⟩,
           ⟨3, 30, none, none, none, none⟩, ⟨4, 40, none, none, none, none⟩,
           ⟨5, 50, none, none, none, none⟩, ⟨6, 60, none, none, none, none⟩]).drop
            (6 - 5) <:+ sortReportHistory
          [⟨1, 10, none, none, none, none⟩, ⟨2, 20, none, none, none, none⟩,
           ⟨3, 30, none, none, none, none⟩, ⟨4, 40, none, none, none, none⟩,
           ⟨5, 50, none, none, none, none⟩, ⟨6, 60, none, none, none, none⟩] ∧
      ((sortReportHistory
          [⟨1, 10, none, none, none, none⟩, ⟨2, 20, none, none, none, none⟩,
           ⟨3, 30, none, none, none, none⟩, ⟨4, 40, none, none, none, none⟩,
           ⟨5, 50, none, none, none, none⟩, ⟨6, 60, none, none, none, none⟩]).drop
            (6 - 5)).Pairwise (fun a b => a.createdAt ≤ b.createdAt)) :=
  fetchRequestPayload_spec
    [⟨1, 10, none, none, none, none⟩, ⟨2, 20, none, none, none, none⟩,
     ⟨3, 30, none, none, none, none⟩, ⟨4, 40, none, none, none, none⟩,
     ⟨5, 50, none, none, none, none⟩, ⟨6, 60, none, none, none, none⟩]

/-! Section: Claim C10: cumulative improvement rate bounds -/

/-- C10: every cumulativeImprovementRate lies between 0 and 100: it is
the rounded percentage of Improved sessions among the first i+1
sessions, and the divisor i+1 is never zero. -/
theorem cumulativeImprovementRate_spec (l : List ReportVersion) (i : Nat)
    (h : i < (sessionMetrics l).length) :
    0 ≤ ((sessionMetrics l).get ⟨i, h⟩).cumulativeImprovementRate ∧
    ((sessionMetrics l).get ⟨i, h⟩).cumulativeImprovementRate ≤ 100 ∧
    ((sessionMetrics l).get ⟨i, h⟩).cumulativeImprovementRate =
      round ((((l.take (i + 1)).filter isImproved).length : ℚ) /
        ((i : ℚ) + 1) * 100) ∧
    i + 1 ≠ 0 := by
  have hl : ¬(l.length = 0) := by
    intro h0
    rw [sessionMetrics, if_pos h0] at h
    simp at h
  have hfield : ((sessionMetrics l).get ⟨i, h⟩).cumulativeImprovementRate =
      round ((((l.take (i + 1)).filter isImproved).length : ℚ) /
        ((i : ℚ) + 1) * 100) := by
    simp only [List.get_eq_getElem, sessionMetrics, if_neg hl,
      List.getElem_mapIdx]
  have hcle : ((l.take (i + 1)).filter isImproved).length ≤ i + 1 := by
    calc ((l.take (i + 1)).filter isImproved).length
        ≤ (l.take (i + 1)).length := List.length_filter_le _ _
      _ ≤ i + 1 := by rw [List.length_take]; omega
  have hx0 : (0 : ℚ) ≤
      (((l.take (i + 1)).filter isImproved).length : ℚ) / ((i : ℚ) + 1) * 100 := by
    positivity
  have hx1 : (((l.take (i + 1)).filter isImproved).length : ℚ) /
      ((i : ℚ) + 1) * 100 ≤ 100 := by
    have h1 : (((l.take (i + 1)).filter isImproved).length : ℚ) ≤ (i : ℚ) + 1 := by
      exact_mod_cast hcle
    have hpos : (0 : ℚ) < (i : ℚ) + 1 := by positivity
    have h2 := (div_le_one hpos).mpr h1
    nlinarith
  refine ⟨?_, ?_, hfield, by omega⟩
  · rw [hfield, round_eq]
    exact Int.le_floor.mpr (by push_cast; linarith)
  · rw [hfield, round_eq]
    have hfl : (⌊(((l.take (i + 1)).filter isImproved).length : ℚ) /
        ((i : ℚ) + 1) * 100 + 1 / 2⌋ : Int) < 101 :=
      Int.floor_lt.mpr (by push_cast; linarith)
    omega

/-- Witness for C10 on a two-session history at index 1. -/
theorem cumulativeImprovementRate_spec_witness :
    0 ≤ ((sessionMetrics
        [⟨"a", 1, 0, "u", ⟨some 7, some "Improved", none, none, none, none, none, none⟩⟩,
         ⟨"b", 2, 1, "v", ⟨some 5, some "Same", none, none, none, none, none, none⟩⟩]).get
      ⟨1, by decide⟩).cumulativeImprovementRate ∧
    ((sessionMetrics
        [⟨"a", 1, 0, "u", ⟨some 7, some "Improved", none, none, none, none, none, none⟩⟩,
         ⟨"b", 2, 1, "v", ⟨some 5, some "Same", none, none, none, none, none, none⟩⟩]).get
      ⟨1, by decide⟩).cumulativeImprovementRate ≤ 100 ∧
    ((sessionMetrics
        [⟨"a", 1, 0, "u", ⟨some 7, some "Improved", none, none, none, none, none, none⟩⟩,
         ⟨"b", 2, 1, "v", ⟨some 5, some "Same", none, none, none, none, none, none⟩⟩]).get
      ⟨1, by decide⟩).cumulativeImprovementRate =
      round ((((([⟨"a", 1, 0, "u", ⟨some 7, some "Improved", none, none, none, none, none, none⟩⟩,
         ⟨"b", 2, 1, "v", ⟨some 5, some "Same", none, none, none, none, none, none⟩⟩] :
          List ReportVersion).take (1 + 1)).filter isImproved).length : ℚ) /
        ((1 : ℚ) + 1) * 100) ∧
    1 + 1 ≠ 0 :=
  cumulativeImprovementRate_spec
    [⟨"a", 1, 0, "u", ⟨some 7, some "Improved", none, none, none, none, none, none⟩⟩,
     ⟨"b", 2, 1, "v", ⟨some 5, some "Same", none, none, none, none, none, none⟩⟩]
    1 (by decide)

/-! Section: Claim C3: rate-limit fallback of the analyze-patient route -/

/-- C3: when the chat-completion call fails with a rate-limit error
(status 429 or code rate_limit_exceeded), the route returns HTTP 200
with success true and the fixed canned analysis, whose key_achievements
is a one-element string array; a non-rate-limit failure of the call is
surfaced as a failure response. -/
theorem analyzePatient_rateLimit_spec (l : List ReportItem) (hne : l ≠ [])
    (status : Option Int) (code : Option String) (msg : Option String) :
    ((status = some 429 ∨ code = some "rate_limit_exceeded") →
      analyzePatientPOST (.arr l) true (.threw status code msg) =
        (⟨200, true, none, some fallbackAnalysis⟩, true) ∧
      fallbackAnalysis.key_achievements = ["Analysis temporarily unavailable"] ∧
      fallbackAnalysis.key_achievements.length = 1) ∧
    (¬(status = some 429 ∨ code = some "rate_limit_exceeded") →
      (analyzePatientPOST (.arr l) true (.threw status code msg)).1.success = false ∧
      (analyzePatientPOST (.arr l) true (.threw status code msg)).1.status ≠ 200) := by
  have hlen : ¬(l.length = 0) := by
    simpa [List.length_eq_zero] using hne
  have hrw : ∀ outcome, analyzePatientPOST (.arr l) true outcome =
      match outcome with
      | .threw status code msg =>
        if isRateLimit status code then
          (⟨200, true, none, some fallbackAnalysis⟩, true)
        else if status == some 401 then
          (⟨401, false, some "Invalid OpenAI API key", none⟩, true)
        else if isRateLimit status code then
          (⟨200, true, none, some fallbackAnalysis⟩, true)
        else
          (⟨500, false, some (msg.getD "Failed to analyze patient data"), none⟩, true)
      | .noContent => (⟨500, false, some "No response from OpenAI", none⟩, true)
      | .badJson => (⟨500, false, some "Invalid JSON response from AI", none⟩, true)
      | .json a =>
        match a.summary, a.trend_analysis, a.key_achievements, a.recommendation with
        | some s, some t, some k, some r =>
          (⟨200, true, none, some ⟨s, t, k, r⟩⟩, true)
        | _, _, _, _ =>
          (⟨500, false, some "Invalid analysis structure from AI. Missing required fields.", none⟩, true) := by
    intro outcome
    simp [analyzePatientPOST, hlen]
  constructor
  · intro hrl
    have hb : isRateLimit status code = true := by
      unfold isRateLimit
      rcases hrl with h | h <;> simp [h]
    refine ⟨?_, rfl, rfl⟩
    rw [hrw]
    simp [hb]
  · intro hrl
    push_neg at hrl
    have hb : isRateLimit status code = false := by
      unfold isRateLimit
      simp [hrl.1, hrl.2]
    rw [hrw]
    simp only [hb, Bool.false_eq_true, if_false]
    split <;> simp

/-- Witness for C3: a rate-limited call on a one-report history. -/
theorem analyzePatient_rateLimit_spec_witness :
    analyzePatientPOST (.arr [⟨1, 0, none, none, none, none⟩]) true
        (.threw (some 429) none none) =
      (⟨200, true, none, some fallbackAnalysis⟩, true) ∧
    fallbackAnalysis.key_achievements = ["Analysis temporarily unavailable"] ∧
    fallbackAnalysis.key_achievements.length = 1 :=
  (analyzePatient_rateLimit_spec [⟨1, 0, none, none, none, none⟩] (by decide)
    (some 429) none none).1 (Or.inl rfl)

/-! Section: Claim C7: reportHistory validation of the analyze-patient route -/

/-- C7: a missing, non-array or empty reportHistory yields HTTP 400 with
success false and a descriptive message, and the OpenAI API is never
invoked (the second component of the result is false). -/
theorem analyzePatient_badRequest_spec :
    ∀ (key : Bool) (outcome : OpenAIOutcome),
      analyzePatientPOST .missing key outcome =
        (⟨400, false,
          some "Missing or invalid field: reportHistory (must be an array)",
          none⟩, false) ∧
      analyzePatientPOST .notArray key outcome =
        (⟨400, false,
          some "Missing or invalid field: reportHistory (must be an array)",
          none⟩, false) ∧
      analyzePatientPOST (.arr []) key outcome =
        (⟨400, false,
          some "Report history is empty. At least one report is required for analysis.",
          none⟩, false) := by
  intro key outcome
  exact ⟨rfl, rfl, rfl⟩

/-! Section: Claim C8 (corrected): password-change route -/

/-- Counterexample to C8 as stated: an idToken that fails verification
together with a missing currentPassword yields HTTP 400 (the password
presence checks run before token verification), not the 401 the claim
requires for every verification failure. -/
theorem changePassword_claim_counterexample :
    (changePasswordPOST (some "badtoken") none (some "secret1")
        (fun _ => none) true).1.status = 400 ∧
    (fun (_ : String) => (none : Option DecodedToken)) "badtoken" = none ∧
    (400 : Nat) ≠ 401 := by
  refine ⟨?_, rfl, by decide⟩
  rfl

/-- C8 (amended): the checks run in order — 401 when the idToken is
missing; then 400 when currentPassword or newPassword is missing or
newPassword is shorter than 6 characters; then 401 when verification
fails; then 400 when the token carries no email.  Only when every check
passes is the password update issued, with success true on success and
500 on failure, and every response is an HTTP status with a JSON body
(status 200, 400, 401 or 500, with an error message on every failure). -/
theorem changePassword_spec (idToken? currentPassword? newPassword? : Option String)
    (verify : String → Option DecodedToken) (updateOk : Bool) :
    (jsTrim (idToken?.getD "") = "" →
      changePasswordPOST idToken? currentPassword? newPassword? verify updateOk =
        (⟨401, some "Authentication token is required", false, none⟩, none)) ∧
    (jsTrim (idToken?.getD "") ≠ "" → jsTrim (currentPassword?.getD "") = "" →
      changePasswordPOST idToken? currentPassword? newPassword? verify updateOk =
        (⟨400, some "Current password is required", false, none⟩, none)) ∧
    (jsTrim (idToken?.getD "") ≠ "" → jsTrim (currentPassword?.getD "") ≠ "" →
      jsTrim (newPassword?.getD "") = "" →
      changePasswordPOST idToken? currentPassword? newPassword? verify updateOk =
        (⟨400, some "New password is required", false, none⟩, none)) ∧
    (jsTrim (idToken?.getD "") ≠ "" → jsTrim (currentPassword?.getD "") ≠ "" →
      jsTrim (newPassword?.getD "") ≠ "" → (jsTrim (newPassword?.getD "")).length < 6 →
      changePasswordPOST idToken? currentPassword? newPassword? verify updateOk =
        (⟨400, some "New password must be at least 6 characters long", false, none⟩, none)) ∧
    (jsTrim (idToken?.getD "") ≠ "" → jsTrim (currentPassword?.getD "") ≠ "" →
      jsTrim (newPassword?.getD "") ≠ "" → ¬(jsTrim (newPassword?.getD "")).length < 6 →
      verify (jsTrim (idToken?.getD "")) = none →
      changePasswordPOST idToken? currentPassword? newPassword? verify updateOk =
        (⟨401, some "Invalid or expired authentication token. Please log in again.",
          false, none⟩, none)) ∧
    (∀ tok, jsTrim (idToken?.getD "") ≠ "" → jsTrim (currentPassword?.getD "") ≠ "" →
      jsTrim (newPassword?.getD "") ≠ "" → ¬(jsTrim (newPassword?.getD "")).length < 6 →
      verify (jsTrim (idToken?.getD "")) = some tok → tok.email = "" →
      changePasswordPOST idToken? currentPassword? newPassword? verify updateOk =
        (⟨400, some "User email not found", false, none⟩, none)) ∧
    (∀ tok, jsTrim (idToken?.getD "") ≠ "" → jsTrim (currentPassword?.getD "") ≠ "" →
      jsTrim (newPassword?.getD "") ≠ "" → ¬(jsTrim (newPassword?.getD "")).length < 6 →
      verify (jsTrim (idToken?.getD "")) = some tok → tok.email ≠ "" →
      (changePasswordPOST idToken? currentPassword? newPassword? verify updateOk).2 =
        some (tok.uid, jsTrim (newPassword?.getD "")) ∧
      (updateOk = true →
        (changePasswordPOST idToken? currentPassword? newPassword? verify updateOk).1 =
          ⟨200, none, true, some "Password has been changed successfully"⟩) ∧
      (updateOk = false →
        (changePasswordPOST idToken? currentPassword? newPassword? verify updateOk).1 =
          ⟨500, some "Failed to update password. Please try again.", false, none⟩)) ∧
    ((changePasswordPOST idToken? currentPassword? newPassword? verify updateOk).2 ≠ none →
      jsTrim (idToken?.getD "") ≠ "" ∧ jsTrim (currentPassword?.getD "") ≠ "" ∧
      jsTrim (newPassword?.getD "") ≠ "" ∧ ¬(jsTrim (newPassword?.getD "")).length < 6 ∧
      ∃ tok, verify (jsTrim (idToken?.getD "")) = some tok ∧ tok.email ≠ "") ∧
    (((changePasswordPOST idToken? currentPassword? newPassword? verify updateOk).1.status = 200 ∨
      (changePasswordPOST idToken? currentPassword? newPassword? verify updateOk).1.status = 400 ∨
      (changePasswordPOST idToken? currentPassword? newPassword? verify updateOk).1.status = 401 ∨
      (changePasswordPOST idToken? currentPassword? newPassword? verify updateOk).1.status = 500) ∧
      ((changePasswordPOST idToken? currentPassword? newPassword? verify updateOk).1.success = false →
        (changePasswordPOST idToken? currentPassword? newPassword? verify updateOk).1.error.isSome = true)) := by
  refine ⟨?_, ?_, ?_, ?_, ?_, ?_, ?_, ?_, ?_⟩
  · intro h1
    simp [changePasswordPOST, h1]
  · intro h1 h2
    simp [changePasswordPOST, h1, h2]
  · intro h1 h2 h3
    simp [changePasswordPOST, h1, h2, h3]
  · intro h1 h2 h3 h4
    simp [changePasswordPOST, h1, h2, h3, h4]
  · intro h1 h2 h3 h4 hv
    simp [changePasswordPOST, h1, h2, h3, h4, hv]
  · intro tok h1 h2 h3 h4 hv he
    simp [changePasswordPOST, h1, h2, h3, h4, hv, he]
  · intro tok h1 h2 h3 h4 hv he
    refine ⟨?_, ?_, ?_⟩
    · cases updateOk <;> simp [changePasswordPOST, h1, h2, h3, h4, hv, he]
    · intro hup
      subst hup
      simp [changePasswordPOST, h1, h2, h3, h4, hv, he]
    · intro hup
      subst hup
      simp [changePasswordPOST, h1, h2, h3, h4, hv, he]
  · intro hne
    by_cases h1 : jsTrim (idToken?.getD "") = ""
    · exact absurd (by simp [changePasswordPOST, h1]) hne
    by_cases h2 : jsTrim (currentPassword?.getD "") = ""
    · exact absurd (by simp [changePasswordPOST, h1, h2]) hne
    by_cases h3 : jsTrim (newPassword?.getD "") = ""
    · exact absurd (by simp [changePasswordPOST, h1, h2, h3]) hne
    by_cases h4 : (jsTrim (newPassword?.getD "")).length < 6
    · exact absurd (by simp [changePasswordPOST, h1, h2, h3, h4]) hne
    cases hv : verify (jsTrim (idToken?.getD "")) with
    | none => exact absurd (by simp [changePasswordPOST, h1, h2, h3, h4, hv]) hne
    | some tok =>
      by_cases he : tok.email = ""
      · exact absurd (by simp [changePasswordPOST, h1, h2, h3, h4, hv, he]) hne
      · exact ⟨h1, h2, h3, h4, tok, rfl, he⟩
  · constructor
    · by_cases h1 : jsTrim (idToken?.getD "") = ""
      · simp [changePasswordPOST, h1]
      by_cases h2 : jsTrim (currentPassword?.getD "") = ""
      · simp [changePasswordPOST, h1, h2]
      by_cases h3 : jsTrim (newPassword?.getD "") = ""
      · simp [changePasswordPOST, h1, h2, h3]
      by_cases h4 : (jsTrim (newPassword?.getD "")).length < 6
      · simp [changePasswordPOST, h1, h2, h3, h4]
      cases hv : verify (jsTrim (idToken?.getD "")) with
      | none => simp [changePasswordPOST, h1, h2, h3, h4, hv]
      | some tok =>
        by_cases he : tok.email = ""
        · simp [changePasswordPOST, h1, h2, h3, h4, hv, he]
        · cases updateOk <;> simp [changePasswordPOST, h1, h2, h3, h4, hv, he]
    · intro hfail
      by_cases h1 : jsTrim (idToken?.getD "") = ""
      · simp [changePasswordPOST, h1]
      by_cases h2 : jsTrim (currentPassword?.getD "") = ""
      · simp [changePasswordPOST, h1, h2]
      by_cases h3 : jsTrim (newPassword?.getD "") = ""
      · simp [changePasswordPOST, h1, h2, h3]
      by_cases h4 : (jsTrim (newPassword?.getD "")).length < 6
      · simp [changePasswordPOST, h1, h2, h3, h4]
      cases hv : verify (jsTrim (idToken?.getD "")) with
      | none => simp [changePasswordPOST, h1, h2, h3, h4, hv]
      | some tok =>
        by_cases he : tok.email = ""
        · simp [changePasswordPOST, h1, h2, h3, h4, hv, he]
        · cases hup : updateOk
          · simp [changePasswordPOST, h1, h2, h3, h4, hv, he]
          · rw [hup] at hfail
            simp [changePasswordPOST, h1, h2, h3, h4, hv, he] at hfail

/-- Witness for C8: a fully valid request on which the update succeeds. -/
theorem changePassword_spec_witness :
    (changePasswordPOST (some "tok7") (some "old") (some "secret1")
        (fun _ => some ⟨"u1", "e"⟩) true).2 = some ("u1", "secret1") ∧
    (true = true →
      (changePasswordPOST (some "tok7") (some "old") (some "secret1")
          (fun _ => some ⟨"u1", "e"⟩) true).1 =
        ⟨200, none, true, some "Password has been changed successfully"⟩) ∧
    (true = false →
      (changePasswordPOST (some "tok7") (some "old") (some "secret1")
          (fun _ => some ⟨"u1", "e"⟩) true).1 =
        ⟨500, some "Failed to update password. Please try again.", false, none⟩) :=
  (changePassword_spec (some "tok7") (some "old") (some "secret1")
      (fun _ => some ⟨"u1", "e"⟩) true).2.2.2.2.2.2.1 ⟨"u1", "e"⟩
    (by decide) (by decide) (by decide) (by decide) rfl (by decide)

/-! Section: Lemmas: CSV escaping round trip -/

/-- Valid continuations after a cell: end of input, a comma, or a
newline. -/
def CellStop (rest : List Char) : Prop :=
  rest = [] ∨ (∃ r, rest = ',' :: r) ∨ (∃ r, rest = '\n' :: r)

theorem parseQuoted_escQuotes (cs : List Char) :
    ∀ rest : List Char, CellStop rest →
      parseQuoted (escQuotes cs ++ '"' :: rest) = some (cs, rest) := by
  induction cs with
  | nil =>
    intro rest hrest
    rcases hrest with rfl | ⟨r, rfl⟩ | ⟨r, rfl⟩ <;> simp [escQuotes, parseQuoted]
  | cons c cs' ih =>
    intro rest hrest
    by_cases hc : c = '"'
    · subst hc
      have hstep : escQuotes ('"' :: cs') ++ '"' :: rest =
          '"' :: '"' :: (escQuotes cs' ++ '"' :: rest) := by
        simp [escQuotes]
      rw [hstep]
      have hred : parseQuoted ('"' :: '"' :: (escQuotes cs' ++ '"' :: rest)) =
          (parseQuoted (escQuotes cs' ++ '"' :: rest)).map
            (fun p => ('"' :: p.1, p.2)) := by
        rfl
      rw [hred, ih rest hrest]
      rfl
    · have hstep : escQuotes (c :: cs') ++ '"' :: rest =
          c :: (escQuotes cs' ++ '"' :: rest) := by
        simp [escQuotes, hc]
      rw [hstep]
      have hred : parseQuoted (c :: (escQuotes cs' ++ '"' :: rest)) =
          (parseQuoted (escQuotes cs' ++ '"' :: rest)).map
            (fun p => (c :: p.1, p.2)) := by
        simp [parseQuoted, hc]
      rw [hred, ih rest hrest]
      rfl

theorem not_needsQuote_chars {cs : List Char} (h : needsQuote cs = false) :
    ∀ c ∈ cs, c ≠ ',' ∧ c ≠ '"' ∧ c ≠ '\n' := by
  intro c hc
  have h2 : ¬(c = ',' ∨ c = '"' ∨ c = '\n') := by
    intro hor
    have hcc := List.any_eq_false.mp h c hc
    rcases hor with rfl | rfl | rfl <;> simp at hcc
  exact ⟨fun e => h2 (Or.inl e), fun e => h2 (Or.inr (Or.inl e)),
    fun e => h2 (Or.inr (Or.inr e))⟩

theorem takeWhile_dropWhile_all_append (p : Char → Bool) :
    ∀ (xs ys : List Char), (∀ c ∈ xs, p c = true) →
      (∀ y r, ys = y :: r → p y = false) →
      (xs ++ ys).takeWhile p = xs ∧ (xs ++ ys).dropWhile p = ys := by
  intro xs
  induction xs with
  | nil =>
    intro ys _ hys
    match ys with
    | [] => exact ⟨rfl, rfl⟩
    | y :: r =>
      simp [List.takeWhile_cons, List.dropWhile_cons, hys y r rfl]
  | cons c cs ih =>
    intro ys hxs hys
    have hc : p c = true := hxs c (List.mem_cons_self c cs)
    have hrec := ih ys (fun x hx => hxs x (List.mem_cons_of_mem c hx)) hys
    simp [List.takeWhile_cons, List.dropWhile_cons, hc, hrec.1, hrec.2]

theorem parseCell_escapeCell (cell : List Char) :
    ∀ rest : List Char, CellStop rest →
      parseCell (escapeCell cell ++ rest) = some (cell, rest) := by
  intro rest hrest
  unfold escapeCell
  split
  · have hshape : ('"' :: (escQuotes cell ++ ['"'])) ++ rest =
        '"' :: (escQuotes cell ++ '"' :: rest) := by
      simp
    rw [hshape]
    have hred : parseCell ('"' :: (escQuotes cell ++ '"' :: rest)) =
        parseQuoted (escQuotes cell ++ '"' :: rest) := by
      simp [parseCell]
    rw [hred]
    exact parseQuoted_escQuotes cell rest hrest
  · rename_i hq
    have hq2 : needsQuote cell = false := by
      revert hq
      cases needsQuote cell <;> simp
    have hchars := not_needsQuote_chars hq2
    cases cell with
    | nil =>
      rw [List.nil_append]
      rcases hrest with rfl | ⟨r, rfl⟩ | ⟨r, rfl⟩
      · rfl
      · simp [parseCell, notSep, List.takeWhile_cons, List.dropWhile_cons]
      · simp [parseCell, notSep, List.takeWhile_cons, List.dropWhile_cons]
    | cons c cs' =>
      have hall : ∀ x ∈ c :: cs', notSep x = true := by
        intro x hx
        have hx2 := hchars x hx
        simp [notSep, hx2.1, hx2.2.2]
      have hstop : ∀ y r, rest = y :: r → notSep y = false := by
        intro y r hy
        rcases hrest with h | ⟨r2, h⟩ | ⟨r2, h⟩
        · rw [h] at hy; simp at hy
        · rw [h] at hy
          injection hy with h1 _
          subst h1
          decide
        · rw [h] at hy
          injection hy with h1 _
          subst h1
          decide
      have hsplit := takeWhile_dropWhile_all_append notSep (c :: cs') rest
        hall hstop
      have hc : ¬(c = '"') := (hchars c (List.mem_cons_self c cs')).2.1
      have hne : (c :: cs') ++ rest = c :: (cs' ++ rest) := rfl
      rw [hne]
      simp only [parseCell, if_neg hc]
      rw [← List.cons_append, hsplit.1, hsplit.2]

theorem encodeCSV_cons_cell (cell c2 : List Char) (cs' : List (List Char))
    (rest : List (List (List Char))) :
    encodeCSV ((cell :: c2 :: cs') :: rest) =
      escapeCell cell ++ ',' :: encodeCSV ((c2 :: cs') :: rest) := by
  cases rest with
  | nil => simp [encodeCSV, encodeRow, joinSep, List.append_assoc]
  | cons r rs => simp [encodeCSV, encodeRow, joinSep, List.append_assoc]

theorem encodeCSV_single_cell_cons (cell : List Char) (r1 : List (List Char))
    (rs : List (List (List Char))) :
    encodeCSV ([cell] :: r1 :: rs) =
      escapeCell cell ++ '\n' :: encodeCSV (r1 :: rs) := by
  simp [encodeCSV, encodeRow, joinSep, List.append_assoc]

theorem totalCells_pos (rows : List (List (List Char))) (hne : rows ≠ [])
    (hrows : ∀ row ∈ rows, row ≠ []) : 1 ≤ totalCells rows := by
  match rows with
  | [] => exact absurd rfl hne
  | row :: rest =>
    have : row ≠ [] := hrows row (List.mem_cons_self row rest)
    have : 1 ≤ row.length := by
      match row with
      | [] => exact absurd rfl this
      | c :: cs => simp
    simp only [totalCells, List.map, List.sum_cons]
    omega

theorem parseCSVAux_encodeCSV :
    ∀ (fuel : Nat) (rows : List (List (List Char))), rows ≠ [] →
      (∀ row ∈ rows, row ≠ []) → totalCells rows ≤ fuel →
      parseCSVAux fuel (encodeCSV rows) = some rows := by
  intro fuel
  induction fuel with
  | zero =>
    intro rows hne hrows hf
    exact absurd hf (by have := totalCells_pos rows hne hrows; omega)
  | succ f ih =>
    intro rows hne hrows hf
    match rows with
    | [] => exact absurd rfl hne
    | [] :: rest => exact absurd rfl (hrows [] (List.mem_cons_self _ _))
    | (cell :: cells) :: rest =>
      match cells, rest with
      | [], [] =>
        have henc : encodeCSV [[cell]] = escapeCell cell ++ [] := by
          simp [encodeCSV, encodeRow, joinSep]
        rw [henc, parseCSVAux, parseCell_escapeCell cell [] (Or.inl rfl)]
      | c2 :: cs', rest =>
        rw [encodeCSV_cons_cell cell c2 cs' rest, parseCSVAux,
          parseCell_escapeCell cell (',' :: encodeCSV ((c2 :: cs') :: rest))
            (Or.inr (Or.inl ⟨_, rfl⟩))]
        have hrec := ih ((c2 :: cs') :: rest) (by simp)
          (by
            intro r hr
            rcases List.mem_cons.mp hr with rfl | hr2
            · simp
            · exact hrows r (List.mem_cons_of_mem _ hr2))
          (by
            simp only [totalCells, List.map_cons, List.sum_cons,
              List.length_cons] at hf ⊢
            omega)
        simp only [hrec]
      | [], r1 :: rs =>
        rw [encodeCSV_single_cell_cons cell r1 rs, parseCSVAux,
          parseCell_escapeCell cell ('\n' :: encodeCSV (r1 :: rs))
            (Or.inr (Or.inr ⟨_, rfl⟩))]
        have hrec := ih (r1 :: rs) (by simp)
          (fun r hr => hrows r (List.mem_cons_of_mem _ hr))
          (by
            simp only [totalCells, List.map_cons, List.sum_cons,
              List.length_cons] at hf ⊢
            omega)
        simp only [hrec]

theorem length_encodeRow_bound :
    ∀ row : List (List Char), row.length ≤ (encodeRow row).length + 1 := by
  intro row
  induction row with
  | nil => simp [encodeRow, joinSep]
  | cons c cs ih =>
    match cs with
    | [] => simp [encodeRow, joinSep]
    | c2 :: cs' =>
      have hstep : encodeRow (c :: c2 :: cs') =
          escapeCell c ++ ',' :: encodeRow (c2 :: cs') := by
        simp [encodeRow, joinSep, List.append_assoc]
      rw [hstep]
      simp only [List.length_cons, List.length_append, List.length_cons] at ih ⊢
      omega

theorem totalCells_le_length :
    ∀ rows : List (List (List Char)),
      totalCells rows ≤ (encodeCSV rows).length + 1 := by
  intro rows
  induction rows with
  | nil => simp [totalCells, encodeCSV, joinSep]
  | cons row rest ih =>
    match rest with
    | [] =>
      have := length_encodeRow_bound row
      simp only [totalCells, List.map, List.sum_cons, List.sum_nil,
        encodeCSV, joinSep]
      simp only [totalCells] at this ⊢
      omega
    | r2 :: rs =>
      have hrow := length_encodeRow_bound row
      have hstep : encodeCSV (row :: r2 :: rs) =
          encodeRow row ++ '\n' :: encodeCSV (r2 :: rs) := by
        simp [encodeCSV, joinSep, List.append_assoc]
      rw [totalCells, List.map, List.sum_cons]
      rw [hstep]
      simp only [List.length_append, List.length_cons]
      have ih2 : totalCells (r2 :: rs) ≤ (encodeCSV (r2 :: rs)).length + 1 := ih
      simp only [totalCells] at ih2 ⊢
      omega

theorem parseCSV_encodeCSV (rows : List (List (List Char))) (hne : rows ≠ [])
    (hrows : ∀ row ∈ rows, row ≠ []) :
    parseCSV (encodeCSV rows) = some rows :=
  parseCSVAux_encodeCSV ((encodeCSV rows).length + 1) rows hne hrows
    (totalCells_le_length rows)

set_option maxRecDepth 8000 in
theorem exportHeaders_unescaped :
    joinSep [','] (exportHeaders.map String.data) =
      encodeRow (exportHeaders.map String.data) := by
  decide

set_option maxRecDepth 8000 in
theorem exportDetailsHeaders_unescaped :
    joinSep [','] (exportDetailsHeaders.map String.data) =
      encodeRow (exportDetailsHeaders.map String.data) := by
  decide

theorem handleExportCSV_eq (fmtDate : Option String → String)
    (es : List Employee) :
    handleExportCSV fmtDate es =
      encodeCSV ((exportHeaders.map String.data) ::
        es.map fun e => (exportRow fmtDate e).map String.data) := by
  unfold handleExportCSV encodeCSV
  rw [exportHeaders_unescaped]
  congr 1
  simp [List.map_map]

theorem handleExportEmployeeDetailsCSV_eq (fmtDate : Option String → String)
    (es : List Employee) :
    handleExportEmployeeDetailsCSV fmtDate es =
      encodeCSV ((exportDetailsHeaders.map String.data) ::
        es.map fun e => (exportDetailsRow fmtDate e).map String.data) := by
  unfold handleExportEmployeeDetailsCSV encodeCSV
  rw [exportDetailsHeaders_unescaped]
  congr 1
  simp [List.map_map]

/-! Section: Claim C4: CSV escaping and round trip of the exports -/

/-- C4: a cell without comma, double quote or newline is emitted
verbatim; a cell containing one of those characters is wrapped in
double quotes with embedded double quotes doubled; cells are joined by
commas and rows by newlines, and for every list of employees both
exports parse back, under standard CSV rules, to exactly the original
header and cell values. -/
theorem csv_export_roundtrip_spec :
    (∀ cs : List Char, needsQuote cs = false → escapeCell cs = cs) ∧
    (∀ cs : List Char, needsQuote cs = true →
      escapeCell cs = '"' :: (escQuotes cs ++ ['"'])) ∧
    (∀ (fmtDate : Option String → String) (es : List Employee),
      parseCSV (handleExportCSV fmtDate es) =
        some ((exportHeaders.map String.data) ::
          es.map fun e => (exportRow fmtDate e).map String.data)) ∧
    (∀ (fmtDate : Option String → String) (es : List Employee),
      parseCSV (handleExportEmployeeDetailsCSV fmtDate es) =
        some ((exportDetailsHeaders.map String.data) ::
          es.map fun e => (exportDetailsRow fmtDate e).map String.data)) := by
  refine ⟨?_, ?_, ?_, ?_⟩
  · intro cs h
    unfold escapeCell
    rw [if_neg (by simp [h])]
  · intro cs h
    unfold escapeCell
    rw [if_pos h]
  · intro fmtDate es
    rw [handleExportCSV_eq]
    apply parseCSV_encodeCSV
    · simp
    · intro row hr
      rcases List.mem_cons.mp hr with rfl | hr2
      · simp [exportHeaders]
      · obtain ⟨e, _, rfl⟩ := List.mem_map.mp hr2
        simp [exportRow]
  · intro fmtDate es
    rw [handleExportEmployeeDetailsCSV_eq]
    apply parseCSV_encodeCSV
    · simp
    · intro row hr
      rcases List.mem_cons.mp hr with rfl | hr2
      · simp [exportDetailsHeaders]
      · obtain ⟨e, _, rfl⟩ := List.mem_map.mp hr2
        simp [exportDetailsRow]

/-- Witness for C4: one verbatim cell and one quoted cell. -/
theorem csv_export_roundtrip_spec_witness :
    escapeCell ['a', 'b'] = ['a', 'b'] ∧
    escapeCell ['a', ',', 'b'] = '"' :: (escQuotes ['a', ',', 'b'] ++ ['"']) :=
  ⟨csv_export_roundtrip_spec.1 ['a', 'b'] (by decide),
   csv_export_roundtrip_spec.2.1 ['a', ',', 'b'] (by decide)⟩

end Physio
